import Mathlib

/-!
Shallow embedding of the SubTracker subscription/bill tracker
(`src/services/subscriptions.ts`, `src/services/notifications.ts`).

Calendar dates are modelled as (year, month, day) triples in the proleptic
Gregorian calendar and compared through their linear day number, matching
the source's UTC calendar-date comparisons.  Monetary amounts are modelled
as rationals.
-/

/-- Gregorian leap-year test (semantics of the `date-fns` calendar). -/
def isLeap (y : Nat) : Bool := (y % 4 == 0 && y % 100 != 0) || y % 400 == 0

/-- Number of days in month `m` (1-12) of year `y`; 0 outside 1-12. -/
def daysInMonth (y m : Nat) : Nat :=
  match m with
  | 1 => 31
  | 2 => if isLeap y then 29 else 28
  | 3 => 31
  | 4 => 30
  | 5 => 31
  | 6 => 30
  | 7 => 31
  | 8 => 31
  | 9 => 30
  | 10 => 31
  | 11 => 30
  | 12 => 31
  | _ => 0

/-- Total days in the months `1, …, m-1` of year `y`. -/
def daysBeforeMonth (y : Nat) : Nat → Nat
  | 0 => 0
  | m + 1 => daysBeforeMonth y m + daysInMonth y m

/-- Number of leap years in `[0, y)`. -/
def leapsBefore (y : Nat) : Nat := (y + 3) / 4 - (y + 99) / 100 + (y + 399) / 400

/-- Days from 0000-01-01 to the start of year `y`. -/
def daysBeforeYear (y : Nat) : Nat := 365 * y + leapsBefore y

/-- Length of year `y` in days. -/
def daysInYear (y : Nat) : Nat := if isLeap y then 366 else 365

/-- A calendar date as stored in the `next_billing_date` / `start_date`
columns (ISO `yyyy-mm-dd` strings in the source). -/
structure Date where
  year : Nat
  month : Nat
  day : Nat
deriving DecidableEq, Repr

/-- A well-formed calendar date. -/
def Date.Valid (d : Date) : Prop :=
  1 ≤ d.month ∧ d.month ≤ 12 ∧ 1 ≤ d.day ∧ d.day ≤ daysInMonth d.year d.month

instance (d : Date) : Decidable d.Valid := by
  unfold Date.Valid; infer_instance

/-- Linear day index of a date (days since 0000-01-01); UTC timestamps of
date values are order-isomorphic to this index. -/
def dayNumber (d : Date) : Nat :=
  daysBeforeYear d.year + daysBeforeMonth d.year d.month + (d.day - 1)

/-- The next calendar day. -/
def succDay (d : Date) : Date :=
  if d.day < daysInMonth d.year d.month then ⟨d.year, d.month, d.day + 1⟩
  else if d.month < 12 then ⟨d.year, d.month + 1, 1⟩
  else ⟨d.year + 1, 1, 1⟩

/-- `date-fns` `addDays` on the calendar-day grid. -/
def addDays (d : Date) : Nat → Date
  | 0 => d
  | n + 1 => addDays (succDay d) n

/-- `date-fns` `addMonths`: move `n` months forward, clamping the day of
month to the last day of the target month. -/
def addMonths (d : Date) (n : Nat) : Date :=
  let m0 := d.month - 1 + n
  let y := d.year + m0 / 12
  let m := m0 % 12 + 1
  ⟨y, m, min d.day (daysInMonth y m)⟩

/-- `BillingCycle` from `src/types/index.ts`. -/
inductive BillingCycle
  | weekly
  | monthly
  | quarterly
  | yearly
deriving DecidableEq, Repr

/-- `getNextBillingDate` from `src/services/subscriptions.ts` (lines 43-50):
`addWeeks 1` / `addMonths 1` / `addMonths 3` / `addYears 1`. -/
def getNextBillingDate (currentDate : Date) (cycle : BillingCycle) : Date :=
  match cycle with
  | .weekly => addDays currentDate 7
  | .monthly => addMonths currentDate 1
  | .quarterly => addMonths currentDate 3
  | .yearly => addMonths currentDate 12

/-- Fuel-indexed body of the `while (isBefore(date, today))` loop of
`advanceToFuture` (subscriptions.ts lines 52-59). -/
def advanceToFutureAux (todayN : Nat) (cycle : BillingCycle) : Nat → Date → Date
  | 0, d => d
  | fuel + 1, d =>
      if dayNumber d < todayN then
        advanceToFutureAux todayN cycle fuel (getNextBillingDate d cycle)
      else d

/-- `advanceToFuture`: step one cycle at a time while the date is strictly
before the start of the current day.  `todayN` is the day number of
`startOfDay(new Date())`.  The fuel `todayN - dayNumber d` suffices because
every step advances the date by at least one day. -/
def advanceToFuture (todayN : Nat) (d : Date) (cycle : BillingCycle) : Date :=
  advanceToFutureAux todayN cycle (todayN - dayNumber d) d

/-- `calculateMonthlyEquivalent` (subscriptions.ts lines 61-68). -/
def calculateMonthlyEquivalent (amount : ℚ) (cycle : BillingCycle) : ℚ :=
  match cycle with
  | .weekly => amount * (433 / 100)
  | .monthly => amount
  | .quarterly => amount / 3
  | .yearly => amount / 12

/-- `Math.round(x * 100) / 100` — two-decimal rounding, half toward `+∞`
(JS `Math.round(v)` is `⌊v + 1/2⌋`). -/
def roundTo2 (x : ℚ) : ℚ := (⌊x * 100 + 1 / 2⌋ : ℚ) / 100

/-! ### Data model (`src/types/index.ts`, `src/services/subscriptions.ts`) -/

/-- `Subscription` from `src/types/index.ts`. -/
structure Subscription where
  id : String
  name : String
  amount : ℚ
  currency : String
  billingCycle : BillingCycle
  nextBillingDate : Date
  startDate : Date
  categoryId : String
  notes : Option String
  isActive : Bool
  reminderDays : List Nat
  notificationIds : List String
  createdAt : String
  updatedAt : String
deriving DecidableEq, Repr

/-- `DbSubscription` row shape from `src/services/subscriptions.ts`
(lines 7-22).  `is_active` is the stored 0/1 integer; the serialized JSON
lists are modelled as the lists themselves. -/
structure DbSubscription where
  id : String
  name : String
  amount : ℚ
  currency : String
  billing_cycle : BillingCycle
  next_billing_date : Date
  start_date : Date
  category_id : String
  notes : Option String
  is_active : Nat
  reminder_days : List Nat
  notification_ids : List String
  created_at : String
  updated_at : String
deriving DecidableEq, Repr

/-- `mapFromDb` (subscriptions.ts lines 24-41); `row.notes || undefined`
maps both SQL NULL and the empty string to `undefined`. -/
def mapFromDb (row : DbSubscription) : Subscription :=
  { id := row.id, name := row.name, amount := row.amount,
    currency := row.currency, billingCycle := row.billing_cycle,
    nextBillingDate := row.next_billing_date, startDate := row.start_date,
    categoryId := row.category_id,
    notes := match row.notes with
      | some s => if s = "" then none else some s
      | none => none,
    isActive := row.is_active == 1,
    reminderDays := row.reminder_days,
    notificationIds := row.notification_ids,
    createdAt := row.created_at, updatedAt := row.updated_at }

/-- `SubscriptionInput` from `src/types/index.ts` (the `Omit`). -/
structure SubscriptionInput where
  name : String
  amount : ℚ
  currency : String
  billingCycle : BillingCycle
  nextBillingDate : Date
  startDate : Date
  categoryId : String
  notes : Option String
  isActive : Bool
  reminderDays : List Nat
deriving DecidableEq, Repr

/-- System state: the `subscriptions` table plus the set of reminder
handles currently outstanding in the external notification scheduler. -/
structure SysState where
  db : List DbSubscription
  scheduled : List String
deriving DecidableEq, Repr

/-- `SELECT * FROM subscriptions WHERE id = ?` then `rows[0]`. -/
def getSubscriptionRow (db : List DbSubscription) (id : String) :
    Option DbSubscription :=
  db.find? (fun r => r.id == id)

/-- `getSubscription` (subscriptions.ts lines 90-93). -/
def getSubscription (db : List DbSubscription) (id : String) :
    Option Subscription :=
  (getSubscriptionRow db id).map mapFromDb

/-- `UPDATE subscriptions SET … WHERE id = ?`. -/
def updateWhere (db : List DbSubscription) (id : String)
    (f : DbSubscription → DbSubscription) : List DbSubscription :=
  db.map (fun r => if r.id == id then f r else r)

/-! ### Reminder scheduling adapter (`src/services/notifications.ts`) -/

/-- Instants are minutes; midnight (UTC) of a calendar date `d` is
`1440 * dayNumber d`.  `subDays(billingDate, k)` lands on the instant
`1440 * (dayNumber billing - k)`. -/
def triggerInstant (billing : Date) (daysBefore : Nat) : Int :=
  1440 * (dayNumber billing : Int) - 1440 * (daysBefore : Int)

/-- Loop of `scheduleReminders` (notifications.ts lines 31-47):
`handleGen i off` is the opaque handle returned by the external scheduler
for the `i`-th call made in this run, requested for offset `off`. -/
def scheduleRemindersAux (now : Int) (billing : Date)
    (handleGen : Nat → Nat → String) : List Nat → Nat → List String
  | [], _ => []
  | off :: rest, k =>
      if now < triggerInstant billing off then
        handleGen k off :: scheduleRemindersAux now billing handleGen rest (k + 1)
      else scheduleRemindersAux now billing handleGen rest k

/-- `scheduleReminders` (notifications.ts lines 27-50), with every external
call succeeding. -/
def scheduleReminders (now : Int) (sub : Subscription)
    (handleGen : Nat → Nat → String) : List String :=
  scheduleRemindersAux now sub.nextBillingDate handleGen sub.reminderDays 0

/-- The loop of the later notifications revision (`src/unnamed/part_000`
lines 44-66) with a fallible external scheduler: the first failing call
escapes as the exception of the surrounding `try`. -/
def scheduleRemindersTry (now : Int) (billing : Date)
    (sched : Nat → Nat → Except Unit String) :
    List Nat → Nat → Except Unit (List String)
  | [], _ => .ok []
  | off :: rest, k =>
      if now < triggerInstant billing off then
        match sched k off with
        | .error e => .error e
        | .ok h =>
            (scheduleRemindersTry now billing sched rest (k + 1)).map (h :: ·)
      else scheduleRemindersTry now billing sched rest k

/-- `scheduleReminders` of `src/unnamed/part_000` (lines 40-71): the whole
loop runs inside one `try`; its `catch` returns `[]`. -/
def scheduleRemindersCaught (now : Int) (billing : Date)
    (reminderDays : List Nat) (sched : Nat → Nat → Except Unit String) :
    List String :=
  match scheduleRemindersTry now billing sched reminderDays 0 with
  | .ok ids => ids
  | .error _ => []

/-- `cancelReminders` (notifications.ts lines 52-56): each listed handle is
cancelled in the external scheduler. -/
def cancelRemindersState (st : SysState) (ids : List String) : SysState :=
  { st with scheduled := st.scheduled.filter (fun h => !(ids.contains h)) }

/-! ### Repository operations (`src/services/subscriptions.ts`) -/

inductive SubError
  | notFound
deriving DecidableEq, Repr

/-- The row INSERTed by `createSubscription` (subscriptions.ts lines
75-79): `nextBillingDate` is first normalized with `advanceToFuture`,
`input.notes || null` maps the empty string to SQL NULL, `notification_ids`
starts as `'[]'`. -/
def createdRow (input : SubscriptionInput) (genId now : String)
    (todayN : Nat) : DbSubscription :=
  { id := genId, name := input.name, amount := input.amount,
    currency := input.currency, billing_cycle := input.billingCycle,
    next_billing_date := advanceToFuture todayN input.nextBillingDate input.billingCycle,
    start_date := input.startDate,
    category_id := input.categoryId,
    notes := match input.notes with
      | some s => if s = "" then none else some s
      | none => none,
    is_active := if input.isActive then 1 else 0,
    reminder_days := input.reminderDays, notification_ids := [],
    created_at := now, updated_at := now }

/-- `createSubscription` (subscriptions.ts lines 70-88).  `genId` is the
fresh UUID, `now` the `new Date().toISOString()` timestamp, `todayN` the
day number of `startOfDay(new Date())`, `nowInstant` the current instant,
`handleGen` the external scheduler's handle source.  The second component
models the possibly-undefined `subscription!` return value. -/
def createSubscription (st : SysState) (input : SubscriptionInput)
    (genId : String) (now : String) (todayN : Nat) (nowInstant : Int)
    (handleGen : Nat → Nat → String) : SysState × Option Subscription :=
  let row := createdRow input genId now todayN
  let db1 := st.db ++ [row]
  match getSubscriptionRow db1 genId with
  | none => ({ st with db := db1 }, none)
  | some r =>
      let sub := mapFromDb r
      if sub.isActive then
        let handles := scheduleReminders nowInstant sub handleGen
        let db2 := updateWhere db1 genId
          (fun q => { q with notification_ids := handles })
        (⟨db2, st.scheduled ++ handles⟩, some { sub with notificationIds := handles })
      else ({ st with db := db1 }, some sub)

/-- The dynamic `Partial<Subscription>` update object of
`updateSubscription`: a present `notes` field is a string (the empty string
is stored as SQL NULL via `updates.notes || null`). -/
structure SubscriptionUpdate where
  name : Option String := none
  amount : Option ℚ := none
  currency : Option String := none
  billingCycle : Option BillingCycle := none
  nextBillingDate : Option Date := none
  categoryId : Option String := none
  notes : Option String := none
  isActive : Option Bool := none
  reminderDays : Option (List Nat) := none
deriving DecidableEq, Repr

/-- The field list built by `updateSubscription` (subscriptions.ts lines
120-135): only provided fields are written, plus `updated_at`. -/
def applyUpdates (row : DbSubscription) (u : SubscriptionUpdate)
    (now : String) : DbSubscription :=
  { row with
    updated_at := now,
    name := u.name.getD row.name,
    amount := u.amount.getD row.amount,
    currency := u.currency.getD row.currency,
    billing_cycle := u.billingCycle.getD row.billing_cycle,
    next_billing_date := u.nextBillingDate.getD row.next_billing_date,
    category_id := u.categoryId.getD row.category_id,
    notes := match u.notes with
      | none => row.notes
      | some s => if s = "" then none else some s,
    is_active := match u.isActive with
      | none => row.is_active
      | some b => if b then 1 else 0,
    reminder_days := u.reminderDays.getD row.reminder_days }

/-- `updateSubscription` (subscriptions.ts lines 114-144). -/
def updateSubscription (st : SysState) (id : String) (u : SubscriptionUpdate)
    (now : String) (nowInstant : Int) (handleGen : Nat → Nat → String) :
    Except SubError (SysState × Option Subscription) :=
  match getSubscriptionRow st.db id with
  | none => .error .notFound
  | some existing0 =>
      let existing := mapFromDb existing0
      let st1 := cancelRemindersState st existing.notificationIds
      let db2 := updateWhere st1.db id (fun r => applyUpdates r u now)
      match getSubscriptionRow db2 id with
      | none => .ok (⟨db2, st1.scheduled⟩, none)
      | some r2 =>
          let updated := mapFromDb r2
          if updated.isActive then
            let handles := scheduleReminders nowInstant updated handleGen
            let db3 := updateWhere db2 id
              (fun q => { q with notification_ids := handles })
            .ok (⟨db3, st1.scheduled ++ handles⟩,
              some { updated with notificationIds := handles })
          else .ok (⟨db2, st1.scheduled⟩, some updated)

/-- `markAsPaid` (subscriptions.ts lines 203-226). -/
def markAsPaid (st : SysState) (id : String) (now : String)
    (nowInstant : Int) (handleGen : Nat → Nat → String) :
    Except SubError (SysState × Option Subscription) :=
  match getSubscriptionRow st.db id with
  | none => .error .notFound
  | some existing0 =>
      let existing := mapFromDb existing0
      let st1 := cancelRemindersState st existing.notificationIds
      let nbd := getNextBillingDate existing.nextBillingDate existing.billingCycle
      let db2 := updateWhere st1.db id (fun r =>
        { r with next_billing_date := nbd, updated_at := now,
                 notification_ids := [] })
      match getSubscriptionRow db2 id with
      | none => .ok (⟨db2, st1.scheduled⟩, none)
      | some r2 =>
          let updated := mapFromDb r2
          if updated.isActive then
            let handles := scheduleReminders nowInstant updated handleGen
            let db3 := updateWhere db2 id
              (fun q => { q with notification_ids := handles })
            .ok (⟨db3, st1.scheduled ++ handles⟩,
              some { updated with notificationIds := handles })
          else .ok (⟨db2, st1.scheduled⟩, some updated)

/-! ### Aggregation engine -/

/-- `totals[sub.currency] = (totals[sub.currency] || 0) + monthly`:
accumulate into an insertion-ordered association list (the iteration
order of a JS object with string keys). -/
def addToTotals : List (String × ℚ) → String → ℚ → List (String × ℚ)
  | [], c, v => [(c, v)]
  | (c', t) :: rest, c, v =>
      if c' = c then (c', t + v) :: rest
      else (c', t) :: addToTotals rest c v

/-- The un-rounded per-currency accumulation of `getMonthlyTotal`
(subscriptions.ts lines 154-162). -/
def rawMonthlyTotals (subs : List Subscription) : List (String × ℚ) :=
  subs.foldl
    (fun acc sub =>
      addToTotals acc sub.currency
        (calculateMonthlyEquivalent sub.amount sub.billingCycle)) []

/-- `getMonthlyTotal` (subscriptions.ts lines 154-162); `subs` is the
`getActiveSubscriptions()` snapshot. -/
def getMonthlyTotal (subs : List Subscription) : List (String × ℚ) :=
  (rawMonthlyTotals subs).map (fun p => (p.1, roundTo2 p.2))

/-- `getYearlyTotal` (subscriptions.ts lines 193-196). -/
def getYearlyTotal (subs : List Subscription) : List (String × ℚ) :=
  (getMonthlyTotal subs).map (fun p => (p.1, roundTo2 (p.2 * 12)))

/-- Result shape of `getUpcomingGrouped` (subscriptions.ts lines 295-326). -/
structure Grouped where
  overdue : List Subscription
  today : List Subscription
  tomorrow : List Subscription
  thisWeek : List Subscription
  nextWeek : List Subscription
  later : List Subscription
deriving DecidableEq, Repr

/-- `diff = Math.floor((billingDate - now) / day)`: for two UTC-midnight
calendar dates this is the exact signed day difference. -/
def diffDays (todayN : Nat) (sub : Subscription) : Int :=
  (dayNumber sub.nextBillingDate : Int) - (todayN : Int)

/-- `getUpcomingGrouped` (subscriptions.ts lines 295-326); `subs` is the
`getActiveSubscriptions()` snapshot, `todayN` the day number of
`startOfDay(new Date())`. -/
def getUpcomingGrouped (todayN : Nat) : List Subscription → Grouped
  | [] => ⟨[], [], [], [], [], []⟩
  | sub :: rest =>
      let g := getUpcomingGrouped todayN rest
      let diff := diffDays todayN sub
      if diff < 0 then { g with overdue := sub :: g.overdue }
      else if diff = 0 then { g with today := sub :: g.today }
      else if diff = 1 then { g with tomorrow := sub :: g.tomorrow }
      else if diff ≤ 7 then { g with thisWeek := sub :: g.thisWeek }
      else if diff ≤ 14 then { g with nextWeek := sub :: g.nextWeek }
      else { g with later := sub :: g.later }

/-- Sample active subscription used by concrete instantiations. -/
def c7sub (nm : String) (next : Date) : Subscription :=
  { id := nm, name := nm, amount := 10, currency := "USD",
    billingCycle := .monthly, nextBillingDate := next, startDate := next,
    categoryId := "other", notes := none, isActive := true,
    reminderDays := [], notificationIds := [], createdAt := "",
    updatedAt := "" }

def c7subs : List Subscription :=
  [c7sub "a" ⟨2025, 3, 9⟩, c7sub "b" ⟨2025, 3, 10⟩,
   c7sub "c" ⟨2025, 3, 17⟩, c7sub "d" ⟨2025, 3, 18⟩]

/-! ### Claim C8 -/

/-- Indexed map: the `i`-th element of `l` (counting from `k`) becomes
`f (k + i) l[i]`. -/
def mapWithIndex (f : Nat → Nat → String) : List Nat → Nat → List String
  | [], _ => []
  | a :: l, k => f k a :: mapWithIndex f l (k + 1)

def c8sub : Subscription :=
  { c7sub "e" ⟨2025, 3, 12⟩ with reminderDays := [7, 3, 1] }

def c8gen : Nat → Nat → String := fun i off => toString i ++ "-" ++ toString off

def c9subs : List Subscription := [c7sub "u" ⟨2025, 5, 1⟩]

/-! ### Claim C3 -/

/-- Fallible external scheduler: the first call succeeds with handle `h0`,
every later call fails (e.g. the platform denies the request). -/
def c3sched : Nat → Nat → Except Unit String := fun k _ =>
  if k = 0 then .ok "h0" else .error ()

def c3okGen : Nat → Nat → String := fun k off =>
  toString k ++ ":" ++ toString off

def c3okSched : Nat → Nat → Except Unit String := fun k off =>
  .ok (c3okGen k off)

/-- The row written by the `markAsPaid` UPDATE. -/
def paidRow (row : DbSubscription) (now : String) : DbSubscription :=
  { row with
    next_billing_date := getNextBillingDate row.next_billing_date row.billing_cycle,
    updated_at := now, notification_ids := [] }

/-- The `markAsPaid` row after the rescheduling UPDATE (active case). -/
def paidRowSched (row : DbSubscription) (now : String) (nowInstant : Int)
    (gen : Nat → Nat → String) : DbSubscription :=
  { paidRow row now with
    notification_ids
      := scheduleReminders nowInstant (mapFromDb (paidRow row now)) gen }

def c4row : DbSubscription :=
  { id := "s1", name := "Netflix", amount := 10, currency := "USD",
    billing_cycle := .monthly, next_billing_date := ⟨2025, 1, 15⟩,
    start_date := ⟨2025, 1, 1⟩, category_id := "streaming", notes := none,
    is_active := 1, reminder_days := [1], notification_ids := ["old1"],
    created_at := "", updated_at := "" }

def c4state : SysState := ⟨[c4row], ["old1"]⟩

/-- The row after the `updateSubscription` rescheduling UPDATE (active
case). -/
def updatedRowSched (row : DbSubscription) (u : SubscriptionUpdate)
    (now : String) (nowInstant : Int) (gen : Nat → Nat → String) :
    DbSubscription :=
  { applyUpdates row u now with
    notification_ids
      := scheduleReminders nowInstant (mapFromDb (applyUpdates row u now)) gen }

def c10row : DbSubscription :=
  { id := "s2", name := "Spotify", amount := 6, currency := "USD",
    billing_cycle := .monthly, next_billing_date := ⟨2025, 4, 1⟩,
    start_date := ⟨2025, 1, 1⟩, category_id := "music",
    notes := some "family plan", is_active := 0, reminder_days := [],
    notification_ids := [], created_at := "", updated_at := "" }

def c10state : SysState := ⟨[c10row], []⟩

def c10upd : SubscriptionUpdate := { notes := some "" }

def c1row : DbSubscription :=
  { id := "s3", name := "Gym", amount := 20, currency := "USD",
    billing_cycle := .monthly, next_billing_date := ⟨2025, 3, 1⟩,
    start_date := ⟨2025, 1, 1⟩, category_id := "fitness", notes := none,
    is_active := 0, reminder_days := [], notification_ids := [],
    created_at := "", updated_at := "" }

def c1state : SysState := ⟨[c1row], []⟩

def c1input : SubscriptionInput :=
  { name := "Disney+", amount := 12, currency := "USD",
    billingCycle := .monthly, nextBillingDate := ⟨2025, 3, 1⟩,
    startDate := ⟨2025, 3, 1⟩, categoryId := "streaming", notes := none,
    isActive := false, reminderDays := [] }

def c2input : SubscriptionInput :=
  { name := "", amount := -5, currency := "USD", billingCycle := .monthly,
    nextBillingDate := ⟨2025, 1, 1⟩, startDate := ⟨2025, 1, 1⟩,
    categoryId := "nosuchcategory", notes := none, isActive := false,
    reminderDays := [] }

/-! ### Calendar arithmetic lemmas -/

theorem isLeap_iff (y : Nat) :
    isLeap y = true ↔ (y % 4 = 0 ∧ y % 100 ≠ 0) ∨ y % 400 = 0 := by
  simp [isLeap]

theorem daysBeforeYear_succ (y : Nat) :
    daysBeforeYear (y + 1) = daysBeforeYear y + daysInYear y := by
  have h := isLeap_iff y
  unfold daysBeforeYear daysInYear leapsBefore
  rcases Bool.eq_false_or_eq_true (isLeap y) with hb | hb <;>
    rw [hb] at h ⊢ <;> simp at h ⊢ <;> omega

theorem daysBeforeYear_mono {a b : Nat} (h : a ≤ b) :
    daysBeforeYear a ≤ daysBeforeYear b := by
  unfold daysBeforeYear leapsBefore
  omega

theorem daysInMonth_pos (y m : Nat) (h1 : 1 ≤ m) (h2 : m ≤ 12) :
    1 ≤ daysInMonth y m := by
  interval_cases m <;> simp only [daysInMonth] <;> first | omega | (split <;> omega)

theorem daysBeforeMonth_mono (y : Nat) {a b : Nat} (h : a ≤ b) :
    daysBeforeMonth y a ≤ daysBeforeMonth y b := by
  induction b with
  | zero =>
    have ha : a = 0 := by omega
    subst ha; exact le_rfl
  | succ k ih =>
    rcases Nat.eq_or_lt_of_le h with rfl | hlt
    · exact le_rfl
    · exact le_trans (ih (by omega))
        (Nat.le_add_right (daysBeforeMonth y k) (daysInMonth y k))

theorem daysBeforeMonth_thirteen (y : Nat) :
    daysBeforeMonth y 13 = daysInYear y := by
  rcases Bool.eq_false_or_eq_true (isLeap y) with hb | hb <;>
    simp [daysBeforeMonth, daysInMonth, daysInYear, hb]

theorem dayOfYear_le (y m day : Nat) (h1 : 1 ≤ m) (h2 : m ≤ 12)
    (h3 : 1 ≤ day) (h4 : day ≤ daysInMonth y m) :
    daysBeforeMonth y m + day ≤ daysInYear y := by
  have step : daysBeforeMonth y (m + 1)
      = daysBeforeMonth y m + daysInMonth y m := rfl
  have mono := daysBeforeMonth_mono y (show m + 1 ≤ 13 by omega)
  rw [daysBeforeMonth_thirteen] at mono
  omega

theorem succDay_valid {d : Date} (hd : d.Valid) : (succDay d).Valid := by
  obtain ⟨h1, h2, h3, h4⟩ := hd
  unfold succDay Date.Valid
  split
  · next h => dsimp only; omega
  · split
    · next h hm =>
      dsimp only
      have := daysInMonth_pos d.year (d.month + 1) (by omega) (by omega)
      omega
    · next h hm =>
      dsimp only
      have : daysInMonth (d.year + 1) 1 = 31 := rfl
      omega

theorem dayNumber_succDay {d : Date} (hd : d.Valid) :
    dayNumber (succDay d) = dayNumber d + 1 := by
  obtain ⟨h1, h2, h3, h4⟩ := hd
  unfold succDay
  split
  · next h =>
    unfold dayNumber
    dsimp only
    omega
  · split
    · next h hm =>
      unfold dayNumber
      dsimp only
      have step : daysBeforeMonth d.year (d.month + 1)
          = daysBeforeMonth d.year d.month + daysInMonth d.year d.month := rfl
      omega
    · next h hm =>
      unfold dayNumber
      dsimp only
      have hm12 : d.month = 12 := by omega
      have step : daysBeforeMonth d.year 13
          = daysBeforeMonth d.year 12 + daysInMonth d.year 12 := rfl
      have h13 := daysBeforeMonth_thirteen d.year
      have hy := daysBeforeYear_succ d.year
      have hd12 : daysInMonth d.year 12 = 31 := rfl
      have hb1 : daysBeforeMonth (d.year + 1) 1 = 0 := rfl
      rw [hm12] at h h4 ⊢
      omega

theorem addDays_spec (n : Nat) : ∀ d : Date, d.Valid →
    (addDays d n).Valid ∧ dayNumber (addDays d n) = dayNumber d + n := by
  induction n with
  | zero => intro d hd; exact ⟨hd, rfl⟩
  | succ k ih =>
    intro d hd
    have hs := succDay_valid hd
    have hn := dayNumber_succDay hd
    have h := ih (succDay d) hs
    refine ⟨h.1, ?_⟩
    rw [show addDays d (k + 1) = addDays (succDay d) k from rfl, h.2, hn]
    omega

theorem addMonths_def (d : Date) (n : Nat) :
    addMonths d n =
      ⟨d.year + (d.month - 1 + n) / 12, (d.month - 1 + n) % 12 + 1,
        min d.day (daysInMonth (d.year + (d.month - 1 + n) / 12)
          ((d.month - 1 + n) % 12 + 1))⟩ := rfl

theorem addMonths_valid {d : Date} (hd : d.Valid) (n : Nat) :
    (addMonths d n).Valid := by
  obtain ⟨h1, h2, h3, h4⟩ := hd
  rw [addMonths_def]
  unfold Date.Valid
  dsimp only
  have hpos := daysInMonth_pos (d.year + (d.month - 1 + n) / 12)
    ((d.month - 1 + n) % 12 + 1) (by omega) (by omega)
  exact ⟨by omega, by omega, le_min h3 hpos, min_le_right _ _⟩

theorem dayNumber_addMonths_lt {d : Date} (hd : d.Valid) {n : Nat} (hn : 1 ≤ n) :
    dayNumber d < dayNumber (addMonths d n) := by
  obtain ⟨h1, h2, h3, h4⟩ := hd
  rw [addMonths_def]
  unfold dayNumber
  dsimp only
  rcases Nat.lt_or_ge (d.month - 1 + n) 12 with hc | hc
  · have hdiv : (d.month - 1 + n) / 12 = 0 := Nat.div_eq_of_lt hc
    have hmod : (d.month - 1 + n) % 12 = d.month - 1 + n := Nat.mod_eq_of_lt hc
    rw [hdiv, hmod, Nat.add_zero]
    have step : daysBeforeMonth d.year (d.month + 1)
        = daysBeforeMonth d.year d.month + daysInMonth d.year d.month := rfl
    have mono : daysBeforeMonth d.year (d.month + 1)
        ≤ daysBeforeMonth d.year (d.month - 1 + n + 1) :=
      daysBeforeMonth_mono _ (by omega)
    have hpos : 1 ≤ min d.day (daysInMonth d.year (d.month - 1 + n + 1)) :=
      le_min h3 (daysInMonth_pos _ _ (by omega) (by omega))
    omega
  · have hdiv : 1 ≤ (d.month - 1 + n) / 12 := by omega
    have hb := dayOfYear_le d.year d.month d.day h1 h2 h3 h4
    have hsucc := daysBeforeYear_succ d.year
    have hmono : daysBeforeYear (d.year + 1)
        ≤ daysBeforeYear (d.year + (d.month - 1 + n) / 12) :=
      daysBeforeYear_mono (by omega)
    omega

theorem getNextBillingDate_valid {d : Date} (hd : d.Valid) (c : BillingCycle) :
    (getNextBillingDate d c).Valid := by
  cases c
  · exact (addDays_spec 7 d hd).1
  · exact addMonths_valid hd 1
  · exact addMonths_valid hd 3
  · exact addMonths_valid hd 12

theorem dayNumber_getNextBillingDate_lt {d : Date} (hd : d.Valid)
    (c : BillingCycle) : dayNumber d < dayNumber (getNextBillingDate d c) := by
  cases c
  · have h := (addDays_spec 7 d hd).2
    show dayNumber d < dayNumber (addDays d 7)
    omega
  · exact dayNumber_addMonths_lt hd (by omega)
  · exact dayNumber_addMonths_lt hd (by omega)
  · exact dayNumber_addMonths_lt hd (by omega)

theorem advanceToFutureAux_spec (todayN : Nat) (c : BillingCycle) :
    ∀ (fuel : Nat) (d : Date), d.Valid → todayN ≤ dayNumber d + fuel →
      (advanceToFutureAux todayN c fuel d).Valid ∧
      todayN ≤ dayNumber (advanceToFutureAux todayN c fuel d) ∧
      ∃ n : Nat, advanceToFutureAux todayN c fuel d
        = (fun x => getNextBillingDate x c)^[n] d := by
  intro fuel
  induction fuel with
  | zero =>
    intro d hd hf
    exact ⟨hd, by simpa using hf, 0, rfl⟩
  | succ k ih =>
    intro d hd hf
    rw [show advanceToFutureAux todayN c (k + 1) d
      = if dayNumber d < todayN then
          advanceToFutureAux todayN c k (getNextBillingDate d c)
        else d from rfl]
    by_cases h : dayNumber d < todayN
    · rw [if_pos h]
      have hv := getNextBillingDate_valid hd c
      have hlt := dayNumber_getNextBillingDate_lt hd c
      obtain ⟨a, b, n, hn⟩ := ih (getNextBillingDate d c) hv (by omega)
      exact ⟨a, b, n + 1, by rw [hn, Function.iterate_succ_apply]⟩
    · rw [if_neg h]
      exact ⟨hd, by omega, 0, rfl⟩

theorem advanceToFutureAux_fuel (todayN : Nat) (c : BillingCycle) :
    ∀ (f1 f2 : Nat) (d : Date), d.Valid →
      todayN ≤ dayNumber d + f1 → todayN ≤ dayNumber d + f2 →
      advanceToFutureAux todayN c f1 d = advanceToFutureAux todayN c f2 d := by
  intro f1
  induction f1 with
  | zero =>
    intro f2 d hd h1 h2
    cases f2 with
    | zero => rfl
    | succ j =>
      rw [show advanceToFutureAux todayN c (j + 1) d
        = if dayNumber d < todayN then
            advanceToFutureAux todayN c j (getNextBillingDate d c)
          else d from rfl, if_neg (by omega)]
      rfl
  | succ k ih =>
    intro f2 d hd h1 h2
    rw [show advanceToFutureAux todayN c (k + 1) d
      = if dayNumber d < todayN then
          advanceToFutureAux todayN c k (getNextBillingDate d c)
        else d from rfl]
    by_cases h : dayNumber d < todayN
    · cases f2 with
      | zero => omega
      | succ j =>
        rw [show advanceToFutureAux todayN c (j + 1) d
          = if dayNumber d < todayN then
              advanceToFutureAux todayN c j (getNextBillingDate d c)
            else d from rfl, if_pos h, if_pos h]
        have hv := getNextBillingDate_valid hd c
        have hlt := dayNumber_getNextBillingDate_lt hd c
        exact ih j (getNextBillingDate d c) hv (by omega) (by omega)
    · rw [if_neg h]
      cases f2 with
      | zero => rfl
      | succ j =>
        rw [show advanceToFutureAux todayN c (j + 1) d
          = if dayNumber d < todayN then
              advanceToFutureAux todayN c j (getNextBillingDate d c)
            else d from rfl, if_neg h]

/-! ### Claim C5 -/

/-- C5: `getNextBillingDate` adds 7 days for weekly; one calendar month for
monthly and three for quarterly, with the day of month clamped to the
shorter target month's last day; one calendar year for yearly, with
Feb 29 clamped to Feb 28 in non-leap target years.  In particular
Jan 31 + monthly = Feb 28 (non-leap) / Feb 29 (leap) and
Jan 31 + quarterly = Apr 30. -/
theorem C5_nextOccurrence_spec (d : Date) (hd : d.Valid) :
    dayNumber (getNextBillingDate d .weekly) = dayNumber d + 7 ∧
    getNextBillingDate d .monthly =
      (if d.month = 12
        then ⟨d.year + 1, 1, min d.day (daysInMonth (d.year + 1) 1)⟩
        else ⟨d.year, d.month + 1, min d.day (daysInMonth d.year (d.month + 1))⟩) ∧
    getNextBillingDate d .quarterly =
      (if d.month ≤ 9
        then ⟨d.year, d.month + 3, min d.day (daysInMonth d.year (d.month + 3))⟩
        else ⟨d.year + 1, d.month - 9,
          min d.day (daysInMonth (d.year + 1) (d.month - 9))⟩) ∧
    getNextBillingDate d .yearly =
      ⟨d.year + 1, d.month, min d.day (daysInMonth (d.year + 1) d.month)⟩ ∧
    (d.month = 2 → d.day = 29 → isLeap (d.year + 1) = false →
      getNextBillingDate d .yearly = ⟨d.year + 1, 2, 28⟩) ∧
    getNextBillingDate ⟨2025, 1, 31⟩ .monthly = ⟨2025, 2, 28⟩ ∧
    getNextBillingDate ⟨2024, 1, 31⟩ .monthly = ⟨2024, 2, 29⟩ ∧
    getNextBillingDate ⟨2025, 1, 31⟩ .quarterly = ⟨2025, 4, 30⟩ := by
  obtain ⟨h1, h2, h3, h4⟩ := hd
  have hy : addMonths d 12
      = ⟨d.year + 1, d.month, min d.day (daysInMonth (d.year + 1) d.month)⟩ := by
    rw [addMonths_def]
    have e1 : d.month - 1 + 12 = d.month + 11 := by omega
    have ediv : (d.month + 11) / 12 = 1 := by omega
    have emod : (d.month + 11) % 12 = d.month - 1 := by omega
    have e2 : d.month - 1 + 1 = d.month := by omega
    rw [e1, ediv, emod, e2]
  refine ⟨(addDays_spec 7 d ⟨h1, h2, h3, h4⟩).2, ?_, ?_, hy, ?_,
    by decide, by decide, by decide⟩
  · show addMonths d 1 = _
    rw [addMonths_def]
    by_cases h12 : d.month = 12
    · rw [if_pos h12, h12]
    · rw [if_neg h12]
      have e1 : d.month - 1 + 1 = d.month := by omega
      rw [e1, Nat.div_eq_of_lt (by omega), Nat.mod_eq_of_lt (by omega)]
      simp only [Nat.add_zero]
  · show addMonths d 3 = _
    rw [addMonths_def]
    have e1 : d.month - 1 + 3 = d.month + 2 := by omega
    rw [e1]
    by_cases h9 : d.month ≤ 9
    · rw [if_pos h9, Nat.div_eq_of_lt (by omega), Nat.mod_eq_of_lt (by omega)]
      simp only [Nat.add_zero]
    · rw [if_neg h9]
      have h10 : d.month = 10 ∨ d.month = 11 ∨ d.month = 12 := by omega
      rcases h10 with h | h | h <;> rw [h] <;> norm_num
  · intro hm h29 hl
    show addMonths d 12 = _
    rw [hy, hm, h29]
    have : daysInMonth (d.year + 1) 2 = 28 := by simp [daysInMonth, hl]
    rw [this]
    norm_num

/-- Witness for C5 at the concrete valid date 2025-01-31. -/
theorem C5_nextOccurrence_spec_witness :
    (Date.mk 2025 1 31).Valid ∧
    dayNumber (getNextBillingDate ⟨2025, 1, 31⟩ .weekly)
      = dayNumber ⟨2025, 1, 31⟩ + 7 :=
  ⟨by decide, (C5_nextOccurrence_spec ⟨2025, 1, 31⟩ (by decide)).1⟩

/-! ### Claim C6 -/

/-- C6: for every valid date `d` and cycle, `advanceToFuture` terminates
(the loop stabilizes once the fuel covers the day gap), its result is a
valid date on or after today, the result is `getNextBillingDate` applied
to `d` some `n` times, and a date already on or after today is returned
unchanged. -/
theorem C6_advanceToFuture_spec (todayN : Nat) (d : Date) (c : BillingCycle)
    (hd : d.Valid) :
    (advanceToFuture todayN d c).Valid ∧
    todayN ≤ dayNumber (advanceToFuture todayN d c) ∧
    (∃ n : Nat, advanceToFuture todayN d c
      = (fun x => getNextBillingDate x c)^[n] d) ∧
    (todayN ≤ dayNumber d → advanceToFuture todayN d c = d) ∧
    (∀ fuel : Nat, todayN - dayNumber d ≤ fuel →
      advanceToFutureAux todayN c fuel d = advanceToFuture todayN d c) := by
  obtain ⟨hv, hge, hit⟩ :=
    advanceToFutureAux_spec todayN c (todayN - dayNumber d) d hd (by omega)
  refine ⟨hv, hge, hit, ?_, ?_⟩
  · intro hT
    unfold advanceToFuture
    rw [show todayN - dayNumber d = 0 by omega]
    rfl
  · intro fuel hf
    exact advanceToFutureAux_fuel todayN c fuel (todayN - dayNumber d) d hd
      (by omega) (by omega)

/-- Witness for C6: a date three months in the past, monthly cycle. -/
theorem C6_advanceToFuture_spec_witness :
    dayNumber ⟨2025, 6, 15⟩
      ≤ dayNumber (advanceToFuture (dayNumber ⟨2025, 6, 15⟩) ⟨2025, 3, 1⟩ .monthly) :=
  (C6_advanceToFuture_spec (dayNumber ⟨2025, 6, 15⟩) ⟨2025, 3, 1⟩ .monthly
    (by decide)).2.1

/-! ### Claim C7 -/

theorem getUpcomingGrouped_cons (todayN : Nat) (s : Subscription)
    (rest : List Subscription) :
    getUpcomingGrouped todayN (s :: rest) =
      (if diffDays todayN s < 0 then
        { getUpcomingGrouped todayN rest with
            overdue := s :: (getUpcomingGrouped todayN rest).overdue }
       else if diffDays todayN s = 0 then
        { getUpcomingGrouped todayN rest with
            today := s :: (getUpcomingGrouped todayN rest).today }
       else if diffDays todayN s = 1 then
        { getUpcomingGrouped todayN rest with
            tomorrow := s :: (getUpcomingGrouped todayN rest).tomorrow }
       else if diffDays todayN s ≤ 7 then
        { getUpcomingGrouped todayN rest with
            thisWeek := s :: (getUpcomingGrouped todayN rest).thisWeek }
       else if diffDays todayN s ≤ 14 then
        { getUpcomingGrouped todayN rest with
            nextWeek := s :: (getUpcomingGrouped todayN rest).nextWeek }
       else
        { getUpcomingGrouped todayN rest with
            later := s :: (getUpcomingGrouped todayN rest).later }) := rfl

theorem upcomingGrouped_filter (todayN : Nat) (subs : List Subscription) :
    (getUpcomingGrouped todayN subs).overdue
      = subs.filter (fun s => decide (diffDays todayN s < 0)) ∧
    (getUpcomingGrouped todayN subs).today
      = subs.filter (fun s => decide (diffDays todayN s = 0)) ∧
    (getUpcomingGrouped todayN subs).tomorrow
      = subs.filter (fun s => decide (diffDays todayN s = 1)) ∧
    (getUpcomingGrouped todayN subs).thisWeek
      = subs.filter
          (fun s => decide (2 ≤ diffDays todayN s ∧ diffDays todayN s ≤ 7)) ∧
    (getUpcomingGrouped todayN subs).nextWeek
      = subs.filter
          (fun s => decide (8 ≤ diffDays todayN s ∧ diffDays todayN s ≤ 14)) ∧
    (getUpcomingGrouped todayN subs).later
      = subs.filter (fun s => decide (14 < diffDays todayN s)) := by
  induction subs with
  | nil => exact ⟨rfl, rfl, rfl, rfl, rfl, rfl⟩
  | cons s rest ih =>
    obtain ⟨i1, i2, i3, i4, i5, i6⟩ := ih
    rw [getUpcomingGrouped_cons]
    by_cases hc1 : diffDays todayN s < 0
    · rw [if_pos hc1]
      refine ⟨?_, ?_, ?_, ?_, ?_, ?_⟩ <;> dsimp only <;>
        simp only [i1, i2, i3, i4, i5, i6, List.filter_cons, decide_eq_true_eq] <;>
        first | rw [if_pos (by omega)] | rw [if_neg (by omega)]
    · rw [if_neg hc1]
      by_cases hc2 : diffDays todayN s = 0
      · rw [if_pos hc2]
        refine ⟨?_, ?_, ?_, ?_, ?_, ?_⟩ <;> dsimp only <;>
          simp only [i1, i2, i3, i4, i5, i6, List.filter_cons, decide_eq_true_eq] <;>
          first | rw [if_pos (by omega)] | rw [if_neg (by omega)]
      · rw [if_neg hc2]
        by_cases hc3 : diffDays todayN s = 1
        · rw [if_pos hc3]
          refine ⟨?_, ?_, ?_, ?_, ?_, ?_⟩ <;> dsimp only <;>
            simp only [i1, i2, i3, i4, i5, i6, List.filter_cons,
              decide_eq_true_eq] <;>
            first | rw [if_pos (by omega)] | rw [if_neg (by omega)]
        · rw [if_neg hc3]
          by_cases hc4 : diffDays todayN s ≤ 7
          · rw [if_pos hc4]
            refine ⟨?_, ?_, ?_, ?_, ?_, ?_⟩ <;> dsimp only <;>
              simp only [i1, i2, i3, i4, i5, i6, List.filter_cons,
                decide_eq_true_eq] <;>
              first | rw [if_pos (by omega)] | rw [if_neg (by omega)]
          · rw [if_neg hc4]
            by_cases hc5 : diffDays todayN s ≤ 14
            · rw [if_pos hc5]
              refine ⟨?_, ?_, ?_, ?_, ?_, ?_⟩ <;> dsimp only <;>
                simp only [i1, i2, i3, i4, i5, i6, List.filter_cons,
                  decide_eq_true_eq] <;>
                first | rw [if_pos (by omega)] | rw [if_neg (by omega)]
            · rw [if_neg hc5]
              refine ⟨?_, ?_, ?_, ?_, ?_, ?_⟩ <;> dsimp only <;>
                simp only [i1, i2, i3, i4, i5, i6, List.filter_cons,
                  decide_eq_true_eq] <;>
                first | rw [if_pos (by omega)] | rw [if_neg (by omega)]

/-- C7: `getUpcomingGrouped` buckets each subscription by the signed day
difference `diffDays` — negative → overdue, 0 → today, 1 → tomorrow,
2..7 → thisWeek, 8..14 → nextWeek, above 14 → later — and when the source
list is sorted by ascending billing date, every bucket is too. -/
theorem C7_upcomingGrouped_buckets (todayN : Nat) (subs : List Subscription) :
    ((getUpcomingGrouped todayN subs).overdue
      = subs.filter (fun s => decide (diffDays todayN s < 0)) ∧
     (getUpcomingGrouped todayN subs).today
      = subs.filter (fun s => decide (diffDays todayN s = 0)) ∧
     (getUpcomingGrouped todayN subs).tomorrow
      = subs.filter (fun s => decide (diffDays todayN s = 1)) ∧
     (getUpcomingGrouped todayN subs).thisWeek
      = subs.filter
          (fun s => decide (2 ≤ diffDays todayN s ∧ diffDays todayN s ≤ 7)) ∧
     (getUpcomingGrouped todayN subs).nextWeek
      = subs.filter
          (fun s => decide (8 ≤ diffDays todayN s ∧ diffDays todayN s ≤ 14)) ∧
     (getUpcomingGrouped todayN subs).later
      = subs.filter (fun s => decide (14 < diffDays todayN s))) ∧
    (List.Sorted
        (fun a b => dayNumber a.nextBillingDate ≤ dayNumber b.nextBillingDate)
        subs →
      (List.Sorted
        (fun a b => dayNumber a.nextBillingDate ≤ dayNumber b.nextBillingDate)
        (getUpcomingGrouped todayN subs).overdue ∧
       List.Sorted
        (fun a b => dayNumber a.nextBillingDate ≤ dayNumber b.nextBillingDate)
        (getUpcomingGrouped todayN subs).today ∧
       List.Sorted
        (fun a b => dayNumber a.nextBillingDate ≤ dayNumber b.nextBillingDate)
        (getUpcomingGrouped todayN subs).tomorrow ∧
       List.Sorted
        (fun a b => dayNumber a.nextBillingDate ≤ dayNumber b.nextBillingDate)
        (getUpcomingGrouped todayN subs).thisWeek ∧
       List.Sorted
        (fun a b => dayNumber a.nextBillingDate ≤ dayNumber b.nextBillingDate)
        (getUpcomingGrouped todayN subs).nextWeek ∧
       List.Sorted
        (fun a b => dayNumber a.nextBillingDate ≤ dayNumber b.nextBillingDate)
        (getUpcomingGrouped todayN subs).later)) := by
  obtain ⟨e1, e2, e3, e4, e5, e6⟩ := upcomingGrouped_filter todayN subs
  refine ⟨⟨e1, e2, e3, e4, e5, e6⟩, ?_⟩
  intro hs
  refine ⟨?_, ?_, ?_, ?_, ?_, ?_⟩
  · rw [e1]; exact hs.filter _
  · rw [e2]; exact hs.filter _
  · rw [e3]; exact hs.filter _
  · rw [e4]; exact hs.filter _
  · rw [e5]; exact hs.filter _
  · rw [e6]; exact hs.filter _

/-- Witness for C7: the spec's boundary example on today = 2025-03-10. -/
theorem C7_upcomingGrouped_buckets_witness :
    (getUpcomingGrouped (dayNumber ⟨2025, 3, 10⟩) c7subs).overdue
      = [c7sub "a" ⟨2025, 3, 9⟩] ∧
    (getUpcomingGrouped (dayNumber ⟨2025, 3, 10⟩) c7subs).today
      = [c7sub "b" ⟨2025, 3, 10⟩] ∧
    (getUpcomingGrouped (dayNumber ⟨2025, 3, 10⟩) c7subs).thisWeek
      = [c7sub "c" ⟨2025, 3, 17⟩] ∧
    (getUpcomingGrouped (dayNumber ⟨2025, 3, 10⟩) c7subs).nextWeek
      = [c7sub "d" ⟨2025, 3, 18⟩] ∧
    List.Sorted
      (fun a b => dayNumber a.nextBillingDate ≤ dayNumber b.nextBillingDate)
      (getUpcomingGrouped (dayNumber ⟨2025, 3, 10⟩) c7subs).thisWeek := by
  have h := C7_upcomingGrouped_buckets (dayNumber ⟨2025, 3, 10⟩) c7subs
  refine ⟨?_, ?_, ?_, ?_, (h.2 (by decide)).2.2.2.1⟩
  · rw [h.1.1]; decide
  · rw [h.1.2.1]; decide
  · rw [h.1.2.2.2.1]; decide
  · rw [h.1.2.2.2.2.1]; decide

theorem mapWithIndex_length (f : Nat → Nat → String) :
    ∀ (l : List Nat) (k : Nat), (mapWithIndex f l k).length = l.length := by
  intro l
  induction l with
  | nil => intro k; rfl
  | cons a t ih => intro k; simp [mapWithIndex, ih]

theorem scheduleRemindersAux_eq (now : Int) (billing : Date)
    (handleGen : Nat → Nat → String) :
    ∀ (offs : List Nat) (k : Nat),
      scheduleRemindersAux now billing handleGen offs k
        = mapWithIndex handleGen
            (offs.filter (fun off => decide (now < triggerInstant billing off)))
            k := by
  intro offs
  induction offs with
  | nil => intro k; rfl
  | cons off rest ih =>
    intro k
    rw [show scheduleRemindersAux now billing handleGen (off :: rest) k
      = (if now < triggerInstant billing off then
          handleGen k off
            :: scheduleRemindersAux now billing handleGen rest (k + 1)
         else scheduleRemindersAux now billing handleGen rest k) from rfl]
    rw [List.filter_cons]
    by_cases h : now < triggerInstant billing off
    · rw [if_pos h, if_pos (by simpa using h), ih (k + 1)]
      rfl
    · rw [if_neg h, if_neg (by simpa using h)]
      exact ih k

/-- C8: `scheduleReminders` produces one handle per reminder offset whose
trigger instant is strictly in the future, silently skips the rest, and
returns the handles in offset order; hence the handle list is never longer
than `reminderDays`, and `[7, 3, 1]` with the billing date two days out
yields exactly the one-day-before handle. -/
theorem C8_scheduleReminders_spec (now : Int) (sub : Subscription)
    (handleGen : Nat → Nat → String) :
    scheduleReminders now sub handleGen
      = mapWithIndex handleGen
          (sub.reminderDays.filter
            (fun off => decide (now < triggerInstant sub.nextBillingDate off)))
          0 ∧
    (scheduleReminders now sub handleGen).length ≤ sub.reminderDays.length ∧
    (sub.reminderDays = [7, 3, 1] →
      1440 * (dayNumber sub.nextBillingDate : Int) - 2880 ≤ now →
      now < 1440 * (dayNumber sub.nextBillingDate : Int) - 1440 →
      scheduleReminders now sub handleGen = [handleGen 0 1]) := by
  have he : scheduleReminders now sub handleGen
      = mapWithIndex handleGen
          (sub.reminderDays.filter
            (fun off => decide (now < triggerInstant sub.nextBillingDate off)))
          0 :=
    scheduleRemindersAux_eq now sub.nextBillingDate handleGen sub.reminderDays 0
  refine ⟨he, ?_, ?_⟩
  · rw [he, mapWithIndex_length]
    exact List.length_filter_le _ _
  · intro hdays hlo hhi
    have c7 : ¬(now < triggerInstant sub.nextBillingDate 7) := by
      unfold triggerInstant; push_cast; omega
    have c3 : ¬(now < triggerInstant sub.nextBillingDate 3) := by
      unfold triggerInstant; push_cast; omega
    have c1 : now < triggerInstant sub.nextBillingDate 1 := by
      unfold triggerInstant; push_cast; omega
    rw [he, hdays]
    simp [List.filter_cons, c7, c3, c1, mapWithIndex]

/-- Witness for C8: billing date 2025-03-12, now early on 2025-03-10. -/
theorem C8_scheduleReminders_spec_witness :
    scheduleReminders (1440 * (dayNumber ⟨2025, 3, 10⟩ : Int)) c8sub c8gen
      = [c8gen 0 1] :=
  (C8_scheduleReminders_spec (1440 * (dayNumber ⟨2025, 3, 10⟩ : Int)) c8sub
    c8gen).2.2 rfl (by decide) (by decide)

/-! ### Claim C9 -/

theorem lookup_map_snd (l : List (String × ℚ)) (f : ℚ → ℚ) (c : String) :
    (l.map (fun p => (p.1, f p.2))).lookup c = (l.lookup c).map f := by
  induction l with
  | nil => rfl
  | cons p rest ih =>
    obtain ⟨k, v⟩ := p
    simp only [List.map_cons, List.lookup]
    by_cases h : c == k
    · simp [h]
    · simp only [Bool.not_eq_true] at h
      simp [h, ih]

theorem roundTo2_mul_twelve (x : ℚ) :
    roundTo2 (roundTo2 x * 12) = roundTo2 x * 12 := by
  unfold roundTo2
  set k := ⌊x * 100 + 1 / 2⌋ with hk
  have e : ((k : ℚ) / 100 * 12) * 100 + 1 / 2 = (12 * k : ℤ) + 1 / 2 := by
    push_cast; ring
  rw [e, Int.floor_int_add]
  have h0 : ⌊(1 / 2 : ℚ)⌋ = 0 := by norm_num
  rw [h0]
  push_cast
  ring

/-- C9: `getYearlyTotal` is exactly `getMonthlyTotal` with each per-currency
total multiplied by 12 and rounded to two decimals (half-up); since the
monthly totals are already rounded to two decimals, that rounding is the
identity, so there is no independent rounding drift. -/
theorem C9_yearlyTotal_from_monthly (subs : List Subscription) :
    getYearlyTotal subs
      = (getMonthlyTotal subs).map (fun p => (p.1, roundTo2 (p.2 * 12))) ∧
    (∀ c : String, (getYearlyTotal subs).lookup c
      = ((getMonthlyTotal subs).lookup c).map (fun t => roundTo2 (t * 12))) ∧
    (∀ c t, (c, t) ∈ getMonthlyTotal subs → roundTo2 (t * 12) = t * 12) := by
  refine ⟨rfl, ?_, ?_⟩
  · intro c
    have h := lookup_map_snd (getMonthlyTotal subs) (fun t => roundTo2 (t * 12)) c
    unfold getYearlyTotal
    exact h
  · intro c t ht
    obtain ⟨p, hp, hpe⟩ := List.mem_map.mp ht
    have h2 : roundTo2 p.2 = t := congrArg Prod.snd hpe
    rw [← h2]
    exact roundTo2_mul_twelve p.2

/-- Witness for C9: a single monthly USD 10 subscription. -/
theorem C9_yearlyTotal_from_monthly_witness :
    roundTo2 ((10 : ℚ) * 12) = 10 * 12 := by
  have hr : roundTo2 (10 : ℚ) = 10 := by norm_num [roundTo2]
  have e : getMonthlyTotal c9subs = [("USD", roundTo2 10)] := rfl
  have hmem : ("USD", (10 : ℚ)) ∈ getMonthlyTotal c9subs := by
    rw [e, hr]
    exact List.mem_singleton.mpr rfl
  exact (C9_yearlyTotal_from_monthly c9subs).2.2 "USD" 10 hmem

/-- C3 counterexample: with two future offsets where the first external call
succeeds and the second fails, the later revision's `scheduleReminders`
returns `[]` — the handle of the succeeded offset is not returned, contrary
to the claimed per-offset isolation with partial success. -/
theorem C3_counterexample :
    scheduleRemindersCaught (1440 * (dayNumber ⟨2025, 3, 10⟩ : Int))
      ⟨2025, 3, 20⟩ [2, 1] c3sched = [] ∧
    c3sched 0 2 = .ok "h0" ∧
    "h0" ∉ scheduleRemindersCaught (1440 * (dayNumber ⟨2025, 3, 10⟩ : Int))
      ⟨2025, 3, 20⟩ [2, 1] c3sched := by
  refine ⟨by decide, rfl, by decide⟩

theorem scheduleRemindersTry_ok (now : Int) (billing : Date)
    (sched : Nat → Nat → Except Unit String) (gen : Nat → Nat → String)
    (hok : ∀ k off, sched k off = .ok (gen k off)) :
    ∀ (offs : List Nat) (k : Nat),
      scheduleRemindersTry now billing sched offs k
        = .ok (scheduleRemindersAux now billing gen offs k) := by
  intro offs
  induction offs with
  | nil => intro k; rfl
  | cons off rest ih =>
    intro k
    rw [show scheduleRemindersTry now billing sched (off :: rest) k
      = (if now < triggerInstant billing off then
          (match sched k off with
            | .error e => .error e
            | .ok h =>
                (scheduleRemindersTry now billing sched rest (k + 1)).map
                  (h :: ·))
         else scheduleRemindersTry now billing sched rest k) from rfl]
    rw [show scheduleRemindersAux now billing gen (off :: rest) k
      = (if now < triggerInstant billing off then
          gen k off :: scheduleRemindersAux now billing gen rest (k + 1)
         else scheduleRemindersAux now billing gen rest k) from rfl]
    by_cases h : now < triggerInstant billing off
    · rw [if_pos h, if_pos h, hok k off, ih (k + 1)]
      rfl
    · rw [if_neg h, if_neg h]
      exact ih k

/-- C3 (amended): the later revision catches failures at the batch level,
not per offset — any external failure makes the whole call return `[]`
(no hard error, but succeeded handles are discarded and remaining offsets
skipped); only when every external call succeeds does it return the
per-offset handle list. -/
theorem C3_amended_batch_catch (now : Int) (billing : Date)
    (days : List Nat) (sched : Nat → Nat → Except Unit String) :
    (∀ e, scheduleRemindersTry now billing sched days 0 = .error e →
      scheduleRemindersCaught now billing days sched = []) ∧
    (∀ gen : Nat → Nat → String, (∀ k off, sched k off = .ok (gen k off)) →
      scheduleRemindersCaught now billing days sched
        = scheduleRemindersAux now billing gen days 0) := by
  constructor
  · intro e he
    unfold scheduleRemindersCaught
    rw [he]
  · intro gen hok
    unfold scheduleRemindersCaught
    rw [scheduleRemindersTry_ok now billing sched gen hok days 0]

/-- Witness for C3 (amended): with an always-succeeding scheduler the caught
version coincides with the per-offset loop. -/
theorem C3_amended_batch_catch_witness :
    scheduleRemindersCaught (1440 * (dayNumber ⟨2025, 3, 10⟩ : Int))
      ⟨2025, 3, 21⟩ [2, 1] c3okSched
      = scheduleRemindersAux (1440 * (dayNumber ⟨2025, 3, 10⟩ : Int))
          ⟨2025, 3, 21⟩ c3okGen [2, 1] 0 :=
  (C3_amended_batch_catch (1440 * (dayNumber ⟨2025, 3, 10⟩ : Int))
    ⟨2025, 3, 21⟩ [2, 1] c3okSched).2 c3okGen (fun _ _ => rfl)

/-! ### Repository lemmas -/

theorem cancelRemindersState_db (st : SysState) (ids : List String) :
    (cancelRemindersState st ids).db = st.db := rfl

theorem cancelRemindersState_scheduled (st : SysState) (ids : List String) :
    (cancelRemindersState st ids).scheduled
      = st.scheduled.filter (fun h => !(ids.contains h)) := rfl

theorem getSubscriptionRow_updateWhere (db : List DbSubscription) (id : String)
    (f : DbSubscription → DbSubscription) (hf : ∀ r, (f r).id = r.id) :
    getSubscriptionRow (updateWhere db id f) id
      = (getSubscriptionRow db id).map f := by
  induction db with
  | nil => rfl
  | cons r rest ih =>
    have e : updateWhere (r :: rest) id f
        = (if r.id == id then f r else r) :: updateWhere rest id f := rfl
    rw [e]
    by_cases h : r.id == id
    · rw [if_pos h]
      have hfr : ((f r).id == id) = true := by rw [hf r]; exact h
      unfold getSubscriptionRow
      simp [List.find?, h, hfr]
    · rw [if_neg h]
      have h' : (r.id == id) = false := by simpa using h
      unfold getSubscriptionRow at ih ⊢
      simp only [List.find?, h']
      exact ih

theorem updateWhere_length (db : List DbSubscription) (id : String)
    (f : DbSubscription → DbSubscription) :
    (updateWhere db id f).length = db.length := by
  unfold updateWhere
  exact List.length_map db _

theorem getSubscriptionRow_append_fresh (db : List DbSubscription)
    (row : DbSubscription) (h : ∀ r ∈ db, r.id ≠ row.id) :
    getSubscriptionRow (db ++ [row]) row.id = some row := by
  induction db with
  | nil =>
    unfold getSubscriptionRow
    simp [List.find?]
  | cons r rest ih =>
    have hne : (r.id == row.id) = false := by
      simpa using h r (List.mem_cons_self r rest)
    unfold getSubscriptionRow at ih ⊢
    rw [List.cons_append]
    simp only [List.find?, hne]
    exact ih (fun x hx => h x (List.mem_cons_of_mem _ hx))

theorem markAsPaid_run (st : SysState) (id : String) (row : DbSubscription)
    (now : String) (nowInstant : Int) (gen : Nat → Nat → String)
    (hrow : getSubscriptionRow st.db id = some row) :
    markAsPaid st id now nowInstant gen
      = (if (mapFromDb (paidRow row now)).isActive then
          .ok (⟨updateWhere
                (updateWhere st.db id (fun r =>
                  { r with
                    next_billing_date
                      := getNextBillingDate row.next_billing_date row.billing_cycle,
                    updated_at := now, notification_ids := [] })) id
                (fun q =>
                  { q with notification_ids
                      := scheduleReminders nowInstant (mapFromDb (paidRow row now)) gen }),
              st.scheduled.filter (fun h => !(row.notification_ids.contains h))
                ++ scheduleReminders nowInstant (mapFromDb (paidRow row now)) gen⟩,
            some { mapFromDb (paidRow row now) with
              notificationIds
                := scheduleReminders nowInstant (mapFromDb (paidRow row now)) gen })
         else
          .ok (⟨updateWhere st.db id (fun r =>
                  { r with
                    next_billing_date
                      := getNextBillingDate row.next_billing_date row.billing_cycle,
                    updated_at := now, notification_ids := [] }),
              st.scheduled.filter (fun h => !(row.notification_ids.contains h))⟩,
            some (mapFromDb (paidRow row now)))) := by
  have h2 : getSubscriptionRow (updateWhere st.db id (fun r =>
      { r with
        next_billing_date
          := getNextBillingDate row.next_billing_date row.billing_cycle,
        updated_at := now, notification_ids := [] })) id
      = some (paidRow row now) := by
    rw [getSubscriptionRow_updateWhere st.db id
      (fun r =>
        { r with
          next_billing_date
            := getNextBillingDate row.next_billing_date row.billing_cycle,
          updated_at := now, notification_ids := [] })
      (fun r => rfl), hrow]
    rfl
  simp only [markAsPaid, hrow, cancelRemindersState_db,
    cancelRemindersState_scheduled, mapFromDb, h2]

/-- C4: `markAsPaid` on a missing id fails with NotFoundError; on an
existing subscription it cancels all current notification handles,
advances `nextBillingDate` by exactly one `getNextBillingDate` step from
the currently stored value (not `advanceToFuture`), persists it, and
reschedules handles only if the subscription is active; a monthly
subscription at 2025-01-15 advances to 2025-02-15. -/
theorem C4_markAsPaid_spec (st : SysState) (id : String) (now : String)
    (nowInstant : Int) (gen : Nat → Nat → String) :
    ((getSubscriptionRow st.db id = none →
        markAsPaid st id now nowInstant gen = .error .notFound) ∧
     (∀ row, getSubscriptionRow st.db id = some row →
        ∃ st' sub,
          markAsPaid st id now nowInstant gen = .ok (st', some sub) ∧
          sub.nextBillingDate
            = getNextBillingDate row.next_billing_date row.billing_cycle ∧
          sub.notificationIds
            = (if row.is_active == 1 then
                scheduleReminders nowInstant (mapFromDb (paidRow row now)) gen
               else []) ∧
          st'.scheduled
            = st.scheduled.filter (fun h => !(row.notification_ids.contains h))
              ++ (if row.is_active == 1 then
                    scheduleReminders nowInstant (mapFromDb (paidRow row now)) gen
                  else []) ∧
          (∃ row', getSubscriptionRow st'.db id = some row' ∧
            row'.next_billing_date = sub.nextBillingDate ∧
            row'.notification_ids = sub.notificationIds))) ∧
    getNextBillingDate ⟨2025, 1, 15⟩ .monthly = ⟨2025, 2, 15⟩ := by
  refine ⟨⟨?_, ?_⟩, by decide⟩
  · intro hnone
    unfold markAsPaid
    rw [hnone]
  · intro row hrow
    rw [markAsPaid_run st id row now nowInstant gen hrow]
    by_cases hact : (mapFromDb (paidRow row now)).isActive
    · rw [if_pos hact]
      have hact' : (row.is_active == 1) = true := hact
      refine ⟨_, _, rfl, rfl, ?_, ?_, ?_⟩
      · rw [if_pos hact']
      · rw [if_pos hact']
      · refine ⟨paidRowSched row now nowInstant gen, ?_, rfl, rfl⟩
        rw [getSubscriptionRow_updateWhere _ id
          (fun q =>
            { q with notification_ids
                := scheduleReminders nowInstant (mapFromDb (paidRow row now)) gen })
          (fun r => rfl)]
        rw [getSubscriptionRow_updateWhere st.db id
          (fun r =>
            { r with
              next_billing_date
                := getNextBillingDate row.next_billing_date row.billing_cycle,
              updated_at := now, notification_ids := [] })
          (fun r => rfl), hrow]
        rfl
    · rw [if_neg hact]
      have hactn : ¬(row.is_active == 1) = true := hact
      refine ⟨_, _, rfl, rfl, ?_, ?_, ?_⟩
      · rw [if_neg hactn]
        rfl
      · rw [if_neg hactn, List.append_nil]
      · refine ⟨paidRow row now, ?_, rfl, rfl⟩
        rw [getSubscriptionRow_updateWhere st.db id
          (fun r =>
            { r with
              next_billing_date
                := getNextBillingDate row.next_billing_date row.billing_cycle,
              updated_at := now, notification_ids := [] })
          (fun r => rfl), hrow]
        rfl

/-- Witness for C4: active monthly subscription billed 2025-01-15 with one
outstanding handle; marking paid advances to 2025-02-15, cancels the old
handle and schedules the new one. -/
theorem C4_markAsPaid_spec_witness :
    ∃ st' sub, markAsPaid c4state "s1" "t" 0 (fun _ _ => "n")
        = .ok (st', some sub) ∧
      sub.nextBillingDate = ⟨2025, 2, 15⟩ ∧
      st'.scheduled = ["n"] ∧ sub.notificationIds = ["n"] := by
  obtain ⟨st', sub, he, hnext, hids, hsched, _⟩ :=
    (C4_markAsPaid_spec c4state "s1" "t" 0 (fun _ _ => "n")).1.2 c4row rfl
  refine ⟨st', sub, he, ?_, ?_, ?_⟩
  · rw [hnext]; decide
  · rw [hsched]; decide
  · rw [hids]; decide

theorem updateSubscription_run (st : SysState) (id : String)
    (row : DbSubscription) (u : SubscriptionUpdate) (now : String)
    (nowInstant : Int) (gen : Nat → Nat → String)
    (hrow : getSubscriptionRow st.db id = some row) :
    updateSubscription st id u now nowInstant gen
      = (if (mapFromDb (applyUpdates row u now)).isActive then
          .ok (⟨updateWhere
                (updateWhere st.db id (fun r => applyUpdates r u now)) id
                (fun q =>
                  { q with notification_ids := scheduleReminders nowInstant (mapFromDb (applyUpdates row u now)) gen }),
              st.scheduled.filter (fun h => !(row.notification_ids.contains h))
                ++ scheduleReminders nowInstant
                    (mapFromDb (applyUpdates row u now)) gen⟩,
            some { mapFromDb (applyUpdates row u now) with
              notificationIds := scheduleReminders nowInstant (mapFromDb (applyUpdates row u now)) gen })
         else
          .ok (⟨updateWhere st.db id (fun r => applyUpdates r u now),
              st.scheduled.filter
                (fun h => !(row.notification_ids.contains h))⟩,
            some (mapFromDb (applyUpdates row u now)))) := by
  have h2 : getSubscriptionRow
      (updateWhere st.db id (fun r => applyUpdates r u now)) id
      = some (applyUpdates row u now) := by
    rw [getSubscriptionRow_updateWhere st.db id
      (fun r => applyUpdates r u now) (fun r => rfl), hrow]
    rfl
  simp only [updateSubscription, hrow, cancelRemindersState_db,
    cancelRemindersState_scheduled, mapFromDb, h2]

theorem createSubscription_run (st : SysState) (input : SubscriptionInput)
    (genId now : String) (todayN : Nat) (nowInstant : Int)
    (gen : Nat → Nat → String)
    (hfresh : ∀ r ∈ st.db, r.id ≠ genId) :
    createSubscription st input genId now todayN nowInstant gen
      = (if (mapFromDb (createdRow input genId now todayN)).isActive then
          (⟨updateWhere (st.db ++ [createdRow input genId now todayN]) genId
              (fun q =>
                { q with notification_ids := scheduleReminders nowInstant (mapFromDb (createdRow input genId now todayN)) gen }),
            st.scheduled ++ scheduleReminders nowInstant
              (mapFromDb (createdRow input genId now todayN)) gen⟩,
           some { mapFromDb (createdRow input genId now todayN) with
             notificationIds := scheduleReminders nowInstant (mapFromDb (createdRow input genId now todayN)) gen })
         else
          (⟨st.db ++ [createdRow input genId now todayN], st.scheduled⟩,
           some (mapFromDb (createdRow input genId now todayN)))) := by
  have hfind : getSubscriptionRow
      (st.db ++ [createdRow input genId now todayN]) genId
      = some (createdRow input genId now todayN) :=
    getSubscriptionRow_append_fresh st.db (createdRow input genId now todayN)
      (fun r hr => hfresh r hr)
  simp only [createSubscription, hfind, mapFromDb]

/-- C10: `updateSubscription` with the `notes` field present but equal to
the empty string persists SQL NULL (`updates.notes || null`), so the record
read back has no notes; with the `notes` field absent the stored notes are
unchanged. -/
theorem C10_update_notes_semantics (st : SysState) (id : String)
    (u : SubscriptionUpdate) (now : String) (nowInstant : Int)
    (gen : Nat → Nat → String) :
    ∀ row, getSubscriptionRow st.db id = some row →
      ∃ st' sub,
        updateSubscription st id u now nowInstant gen = .ok (st', some sub) ∧
        (u.notes = some "" →
          sub.notes = none ∧ (applyUpdates row u now).notes = none) ∧
        (u.notes = none →
          sub.notes = (mapFromDb row).notes ∧
          (applyUpdates row u now).notes = row.notes) ∧
        (∃ row', getSubscriptionRow st'.db id = some row' ∧
          row'.notes = (applyUpdates row u now).notes) := by
  intro row hrow
  rw [updateSubscription_run st id row u now nowInstant gen hrow]
  by_cases hact : (mapFromDb (applyUpdates row u now)).isActive
  · rw [if_pos hact]
    refine ⟨_, _, rfl, ?_, ?_, ?_⟩
    · intro hn
      constructor
      · show (mapFromDb (applyUpdates row u now)).notes = none
        simp [applyUpdates, mapFromDb, hn]
      · simp [applyUpdates, hn]
    · intro hn
      constructor
      · show (mapFromDb (applyUpdates row u now)).notes = (mapFromDb row).notes
        simp [applyUpdates, mapFromDb, hn]
      · simp [applyUpdates, hn]
    · refine ⟨updatedRowSched row u now nowInstant gen, ?_, rfl⟩
      rw [getSubscriptionRow_updateWhere _ id
        (fun q =>
          { q with notification_ids := scheduleReminders nowInstant (mapFromDb (applyUpdates row u now)) gen })
        (fun r => rfl)]
      rw [getSubscriptionRow_updateWhere st.db id
        (fun r => applyUpdates r u now) (fun r => rfl), hrow]
      rfl
  · rw [if_neg hact]
    refine ⟨_, _, rfl, ?_, ?_, ?_⟩
    · intro hn
      constructor
      · show (mapFromDb (applyUpdates row u now)).notes = none
        simp [applyUpdates, mapFromDb, hn]
      · simp [applyUpdates, hn]
    · intro hn
      constructor
      · show (mapFromDb (applyUpdates row u now)).notes = (mapFromDb row).notes
        simp [applyUpdates, mapFromDb, hn]
      · simp [applyUpdates, hn]
    · refine ⟨applyUpdates row u now, ?_, rfl⟩
      rw [getSubscriptionRow_updateWhere st.db id
        (fun r => applyUpdates r u now) (fun r => rfl), hrow]
      rfl

/-- Witness for C10: clearing the notes of an existing subscription. -/
theorem C10_update_notes_semantics_witness :
    ∃ st' sub,
      updateSubscription c10state "s2" c10upd "t" 0 (fun _ _ => "n")
        = .ok (st', some sub) ∧ sub.notes = none := by
  obtain ⟨st', sub, he, hclear, _, _⟩ :=
    C10_update_notes_semantics c10state "s2" c10upd "t" 0 (fun _ _ => "n")
      c10row rfl
  exact ⟨st', sub, he, (hclear rfl).1⟩

/-- C1 counterexample: on 2025-06-15, marking paid a monthly subscription
whose stored `nextBillingDate` is 2025-03-01 persists 2025-04-01 — a date
strictly before today — so the claimed post-operation invariant
`nextBillingDate ≥ today` fails for `markAsPaid` (it advances exactly one
cycle without re-clamping to today). -/
theorem C1_counterexample :
    markAsPaid c1state "s3" "t" 0 (fun _ _ => "n")
      = .ok (⟨[paidRow c1row "t"], []⟩, some (mapFromDb (paidRow c1row "t"))) ∧
    (paidRow c1row "t").next_billing_date = ⟨2025, 4, 1⟩ ∧
    dayNumber (paidRow c1row "t").next_billing_date < dayNumber ⟨2025, 6, 15⟩ := by
  refine ⟨?_, by decide, by decide⟩
  rw [markAsPaid_run c1state "s3" c1row "t" 0 (fun _ _ => "n") rfl]
  rfl

/-- C1 (amended): only `createSubscription` normalizes the billing date
with `advanceToFuture`; for any fresh id and valid input date the persisted
and returned `nextBillingDate` is on or after today.  (`updateSubscription`
persists a provided date verbatim and `markAsPaid` advances exactly one
cycle, so neither guarantees a future date — see the counterexample.) -/
theorem C1_amended_create_persists_future (st : SysState)
    (input : SubscriptionInput) (genId now : String) (todayN : Nat)
    (nowInstant : Int) (gen : Nat → Nat → String)
    (hfresh : ∀ r ∈ st.db, r.id ≠ genId)
    (hvalid : input.nextBillingDate.Valid) :
    ∃ st' sub,
      createSubscription st input genId now todayN nowInstant gen
        = (st', some sub) ∧
      todayN ≤ dayNumber sub.nextBillingDate ∧
      ∃ row', getSubscriptionRow st'.db genId = some row' ∧
        row'.next_billing_date = sub.nextBillingDate := by
  have hfut : todayN ≤ dayNumber
      (advanceToFuture todayN input.nextBillingDate input.billingCycle) :=
    (advanceToFutureAux_spec todayN input.billingCycle
      (todayN - dayNumber input.nextBillingDate) input.nextBillingDate hvalid
      (by omega)).2.1
  rw [createSubscription_run st input genId now todayN nowInstant gen hfresh]
  by_cases hact : (mapFromDb (createdRow input genId now todayN)).isActive
  · rw [if_pos hact]
    refine ⟨_, _, rfl, hfut, ?_⟩
    refine ⟨{ createdRow input genId now todayN with notification_ids := scheduleReminders nowInstant (mapFromDb (createdRow input genId now todayN)) gen }, ?_, rfl⟩
    rw [getSubscriptionRow_updateWhere _ genId
      (fun q =>
        { q with notification_ids := scheduleReminders nowInstant (mapFromDb (createdRow input genId now todayN)) gen })
      (fun r => rfl)]
    have hfind : getSubscriptionRow
        (st.db ++ [createdRow input genId now todayN]) genId
        = some (createdRow input genId now todayN) :=
      getSubscriptionRow_append_fresh st.db (createdRow input genId now todayN)
        (fun r hr => hfresh r hr)
    rw [hfind]
    rfl
  · rw [if_neg hact]
    refine ⟨_, _, rfl, hfut, ?_⟩
    refine ⟨createdRow input genId now todayN, ?_, rfl⟩
    exact getSubscriptionRow_append_fresh st.db (createdRow input genId now todayN)
      (fun r hr => hfresh r hr)

/-- Witness for C1 (amended): creating with a past date, today
2025-06-15. -/
theorem C1_amended_create_persists_future_witness :
    ∃ st' sub,
      createSubscription ⟨[], []⟩ c1input "id9" "t" (dayNumber ⟨2025, 6, 15⟩)
        0 (fun _ _ => "n") = (st', some sub) ∧
      dayNumber ⟨2025, 6, 15⟩ ≤ dayNumber sub.nextBillingDate :=
  (fun ⟨st', sub, he, hge, _⟩ => ⟨st', sub, he, hge⟩)
    (C1_amended_create_persists_future ⟨[], []⟩ c1input "id9" "t"
      (dayNumber ⟨2025, 6, 15⟩) 0 (fun _ _ => "n")
      (fun r hr => absurd hr (List.not_mem_nil r)) (by decide))

/-- C2 counterexample: an input with an empty name, a negative amount and a
category id that exists in no category table is persisted and returned by
`createSubscription` — no `ValidationError` or `NotFoundError` is raised
and nothing is aborted (the service performs no validation at all). -/
theorem C2_counterexample :
    createSubscription ⟨[], []⟩ c2input "id1" "t" 0 0 (fun _ _ => "n")
      = (⟨[createdRow c2input "id1" "t" 0], []⟩,
         some (mapFromDb (createdRow c2input "id1" "t" 0))) ∧
    c2input.name = "" ∧ c2input.amount < 0 := by
  refine ⟨?_, rfl, by norm_num [c2input]⟩
  rw [createSubscription_run ⟨[], []⟩ c2input "id1" "t" 0 0 (fun _ _ => "n")
    (fun r hr => absurd hr (List.not_mem_nil r))]
  rfl

/-- C2 (amended): `createSubscription` performs no input validation — for
every input (empty name, non-positive amount, unknown category included)
and fresh id it persists a new row and returns the full record; the only
input filtering in the repository lives in the UI form. -/
theorem C2_amended_no_validation (st : SysState) (input : SubscriptionInput)
    (genId now : String) (todayN : Nat) (nowInstant : Int)
    (gen : Nat → Nat → String)
    (hfresh : ∀ r ∈ st.db, r.id ≠ genId) :
    ∃ st' sub,
      createSubscription st input genId now todayN nowInstant gen
        = (st', some sub) ∧
      sub.name = input.name ∧ sub.amount = input.amount ∧
      sub.currency = input.currency ∧ sub.billingCycle = input.billingCycle ∧
      sub.categoryId = input.categoryId ∧
      st'.db.length = st.db.length + 1 := by
  rw [createSubscription_run st input genId now todayN nowInstant gen hfresh]
  by_cases hact : (mapFromDb (createdRow input genId now todayN)).isActive
  · rw [if_pos hact]
    refine ⟨_, _, rfl, rfl, rfl, rfl, rfl, rfl, ?_⟩
    show (updateWhere (st.db ++ [createdRow input genId now todayN]) genId _).length
      = st.db.length + 1
    rw [updateWhere_length, List.length_append]
    rfl
  · rw [if_neg hact]
    refine ⟨_, _, rfl, rfl, rfl, rfl, rfl, rfl, ?_⟩
    show (st.db ++ [createdRow input genId now todayN]).length = st.db.length + 1
    rw [List.length_append]
    rfl

/-- Witness for C2 (amended): the invalid input of the counterexample is
still persisted and returned in full. -/
theorem C2_amended_no_validation_witness :
    ∃ st' sub,
      createSubscription ⟨[], []⟩ c2input "id2" "t" 0 0 (fun _ _ => "n")
        = (st', some sub) ∧ sub.name = "" ∧ sub.amount = c2input.amount := by
  obtain ⟨st', sub, he, hname, hamount, _⟩ :=
    C2_amended_no_validation ⟨[], []⟩ c2input "id2" "t" 0 0 (fun _ _ => "n")
      (fun r hr => absurd hr (List.not_mem_nil r))
  exact ⟨st', sub, he, hname, hamount⟩
